import Mathlib

/-!
Verification development for the voice-controlled Mac assistant
(`main.py`, `agent.py`, `tools_executor.py`, `voice_listener.py`,
`voice_responder.py`).

The Python code is shallowly embedded: Python strings are lists of
character codes, fallible Python code returns `Except PyError`, external
backends (PyXA / AppleScript / pyautogui / playwright / OpenAI) are
oracles supplied as parameters, and the background threads of
`voice_responder.py` are modelled as an explicit interleaving transition
system.
-/

namespace VA

/-! ## Python string model

A Python `str` is modelled as a list of Unicode code points. -/

abbrev PyStr := List Nat

/-- Code points of a Lean string literal, used to write concrete Python
strings readably. -/
def codes (s : String) : PyStr := s.data.map Char.toNat

/-- `str.lower` on one character (ASCII, which covers every string this
program manipulates). -/
def pyLowerChar (c : Nat) : Nat := if 65 ≤ c ∧ c ≤ 90 then c + 32 else c

/-- Python `str.lower()`. -/
def pyLower (s : PyStr) : PyStr := s.map pyLowerChar

/-- Python `needle in hay` (substring containment). -/
def pyContains (hay needle : PyStr) : Bool :=
  match hay with
  | [] => needle.isEmpty
  | _ :: t => needle.isPrefixOf hay || pyContains t needle

/-- Recursion core of Python `str.replace`: scans left to right,
replacing every non-overlapping occurrence of the (non-empty) `pat`.
The `fuel` argument only makes the recursion structural (and hence
kernel-evaluable): every step consumes at least one input character, so
`s.length` fuel is always enough. -/
def pyReplaceF (pat repl : PyStr) : Nat → PyStr → PyStr
  | _, [] => []
  | 0, s => s
  | fuel + 1, c :: t =>
    if pat.isPrefixOf (c :: t) then
      repl ++ pyReplaceF pat repl fuel ((c :: t).drop pat.length)
    else c :: pyReplaceF pat repl fuel t

/-- Python `s.replace(pat, repl)`: replaces ALL non-overlapping
occurrences, scanning left to right.  (The program only calls it with a
non-empty `pat`; for `pat = []` we return `s` unchanged.) -/
def pyReplace (s pat repl : PyStr) : PyStr :=
  if pat = [] then s else pyReplaceF pat repl s.length s

/-- Python whitespace characters recognised by `str.strip()`. -/
def isPySpace (c : Nat) : Bool :=
  c = 32 || c = 9 || c = 10 || c = 13 || c = 11 || c = 12

/-- Python `str.strip()`. -/
def pyStrip (s : PyStr) : PyStr :=
  ((s.dropWhile isPySpace).reverse.dropWhile isPySpace).reverse

/-- Decimal rendering of a natural number (Python `str(n)` / f-string
interpolation of an `int`). -/
def natCodes (n : Nat) : PyStr :=
  if h : n = 0 then [48]
  else (natCodes (n / 10)).dropWhile (· = 48) ++ [48 + n % 10]
termination_by n
decreasing_by exact Nat.div_lt_self (Nat.pos_of_ne_zero h) (by omega)

/-! ## Python values and errors -/

/-- A raised Python exception, carrying only its message (the program
only ever inspects `str(e)`). -/
structure PyError where
  msg : PyStr
deriving DecidableEq

/-- A Python dict of keyword parameters (`tool.parameters`): keys are
identifiers, values are strings.  `params.get(k)` returns `None` for a
missing key, modelled as `none`. -/
abbrev Params := List (String × PyStr)

/-- Python `d.get(k)` (default `None`). -/
def pyGet (p : Params) (k : String) : Option PyStr :=
  (p.find? (fun kv => kv.1 = k)).map (fun kv => kv.2)

/-- Rendering of an `Optional[str]` inside an f-string: `None` prints as
the four characters `None`. -/
def pyShow (v : Option PyStr) : PyStr :=
  match v with
  | some s => s
  | none => codes "None"

/-! ## `tools_executor.py`: data model -/

/-- A `ToolResult` dictionary as returned by `ToolExecutor` handlers.
Source handlers populate `success` always, `message` (and for
`_browser_navigate` also `url`) on success, `error` on failure. -/
structure ToolResult where
  success : Bool
  message : Option PyStr := none
  error : Option PyStr := none
  url : Option PyStr := none
deriving DecidableEq

/-- `ToolExecutor` instance state: whether the lazily-initialised
playwright browser session exists (`self.browser is not None`). -/
structure ExecState where
  browserOpen : Bool
deriving DecidableEq

/-- Oracles for the external automation backends used by
`tools_executor.py`.  Each call either returns (`Except.ok`) or raises a
Python exception (`Except.error`). -/
structure Env where
  /-- whether the `PyXA` import succeeded (`PYXA_AVAILABLE`). -/
  pyxaAvailable : Bool
  /-- `Application(app_name).activate()` via PyXA. -/
  activateApp : Option PyStr → Except PyError Unit
  /-- `subprocess.run(["osascript", "-e", script], check=True)`. -/
  osascript : PyStr → Except PyError Unit
  /-- `pyautogui.typewrite(text, interval=...)`. -/
  typewrite : Option PyStr → Except PyError Unit
  /-- `pyautogui.press(key)`. -/
  press : Option PyStr → Except PyError Unit
  /-- `pyautogui.hotkey('command', 'n')`. -/
  hotkeyCmdN : Except PyError Unit
  /-- `async_playwright().start()` + `chromium.launch` + `new_page`. -/
  launchBrowser : Except PyError Unit
  /-- `page.goto(url)` + `wait_for_load_state`. -/
  goto : PyStr → Except PyError Unit
  /-- `page.click(selector)`. -/
  click : Option PyStr → Except PyError Unit
  /-- `page.fill(selector, text)`. -/
  fill : Option PyStr → Option PyStr → Except PyError Unit

/-- A successful handler result dictionary. -/
def okResult (m : PyStr) : ToolResult := { success := true, message := some m }

/-- A failed handler result dictionary. -/
def failResult (e : PyStr) : ToolResult := { success := false, error := some e }

/-- The exception message Python raises for `None[:50]`
(`TypeError: 'NoneType' object is not subscriptable`). -/
def noneSubscriptMsg : PyStr := codes "'NoneType' object is not subscriptable"

/-- The exception message for `None.startswith(...)`. -/
def noneStartswithMsg : PyStr :=
  codes "'NoneType' object has no attribute 'startswith'"

/-- The exception message for `None.lower()`. -/
def noneLowerMsg : PyStr := codes "'NoneType' object has no attribute 'lower'"

/-! ## `tools_executor.py`: handlers

Each handler returns `Except PyError (ToolResult × ExecState)`:
`Except.error` is an exception escaping the handler (possible only from
code that runs before the handler's own `try` block), to be caught by
`execute_tool`'s dispatcher `try`. -/

/-- `ToolExecutor._mac_open_app` (tools_executor.py:66). -/
def macOpenApp (env : Env) (st : ExecState) (p : Params) :
    Except PyError (ToolResult × ExecState) :=
  let appName := pyGet p "app_name"
  let call : Except PyError Unit :=
    if env.pyxaAvailable then env.activateApp appName
    else env.osascript (codes "tell application \"" ++ pyShow appName ++ codes "\" to activate")
  match call with
  | .ok _ => .ok (okResult (codes "Opened " ++ pyShow appName), st)
  | .error e =>
    .ok (failResult (codes "Failed to open " ++ pyShow appName ++ codes ": " ++ e.msg), st)

/-- `ToolExecutor._mac_type_text` (tools_executor.py:96).  The logging
line `text[:50]` runs BEFORE the `try` block, so a missing `text`
parameter raises a `TypeError` past the handler. -/
def macTypeText (env : Env) (st : ExecState) (p : Params) :
    Except PyError (ToolResult × ExecState) :=
  match pyGet p "text" with
  | none => .error ⟨noneSubscriptMsg⟩
  | some t =>
    match env.typewrite (some t) with
    | .ok _ => .ok (okResult (codes "Typed " ++ natCodes t.length ++ codes " characters"), st)
    | .error e => .ok (failResult (codes "Failed to type text: " ++ e.msg), st)

/-- `ToolExecutor._mac_press_key` (tools_executor.py:118). -/
def macPressKey (env : Env) (st : ExecState) (p : Params) :
    Except PyError (ToolResult × ExecState) :=
  let key := pyGet p "key"
  match env.press key with
  | .ok _ => .ok (okResult (codes "Pressed " ++ pyShow key), st)
  | .error e =>
    .ok (failResult (codes "Failed to press " ++ pyShow key ++ codes ": " ++ e.msg), st)

/-- `ToolExecutor._ensure_browser` (tools_executor.py:141): lazy
initialisation of the browser session.  On a launch failure the
exception propagates and `self.browser` remains unset. -/
def ensureBrowser (env : Env) (st : ExecState) : Except PyError ExecState :=
  if st.browserOpen then .ok st
  else
    match env.launchBrowser with
    | .ok _ => .ok { browserOpen := true }
    | .error e => .error e

/-- `ToolExecutor._browser_navigate` (tools_executor.py:150).  Inside the
`try`: ensure the browser, then `url.startswith(...)` (raises on a
missing url, after the browser state change persisted), then `goto`. -/
def browserNavigate (env : Env) (st : ExecState) (p : Params) :
    Except PyError (ToolResult × ExecState) :=
  let url := pyGet p "url"
  match ensureBrowser env st with
  | .error e => .ok (failResult (codes "Failed to navigate: " ++ e.msg), st)
  | .ok st' =>
    match url with
    | none => .ok (failResult (codes "Failed to navigate: " ++ noneStartswithMsg), st')
    | some u =>
      let u' :=
        if (codes "http://").isPrefixOf u || (codes "https://").isPrefixOf u then u
        else codes "https://" ++ u
      match env.goto u' with
      | .ok _ =>
        .ok ({ okResult (codes "Navigated to " ++ u') with url := some u' }, st')
      | .error e => .ok (failResult (codes "Failed to navigate: " ++ e.msg), st')

/-- `ToolExecutor._browser_click` (tools_executor.py:179). -/
def browserClick (env : Env) (st : ExecState) (p : Params) :
    Except PyError (ToolResult × ExecState) :=
  let selector := pyGet p "selector"
  match ensureBrowser env st with
  | .error e => .ok (failResult (codes "Failed to click: " ++ e.msg), st)
  | .ok st' =>
    match env.click selector with
    | .ok _ => .ok (okResult (codes "Clicked " ++ pyShow selector), st')
    | .error e => .ok (failResult (codes "Failed to click: " ++ e.msg), st')

/-- `ToolExecutor._browser_type` (tools_executor.py:201).  The logging
line `text[:50]` runs BEFORE the `try`, so a missing `text` raises past
the handler. -/
def browserType (env : Env) (st : ExecState) (p : Params) :
    Except PyError (ToolResult × ExecState) :=
  let selector := pyGet p "selector"
  match pyGet p "text" with
  | none => .error ⟨noneSubscriptMsg⟩
  | some t =>
    match ensureBrowser env st with
    | .error e => .ok (failResult (codes "Failed to type: " ++ e.msg), st)
    | .ok st' =>
      match env.fill selector (some t) with
      | .ok _ => .ok (okResult (codes "Typed into " ++ pyShow selector), st')
      | .error e => .ok (failResult (codes "Failed to type: " ++ e.msg), st')

/-- `ToolExecutor._send_imessage` (tools_executor.py:253). -/
def sendIMessage (env : Env) (st : ExecState) (recipient message : Option PyStr) :
    Except PyError (ToolResult × ExecState) :=
  let script :=
    codes "\n            tell application \"Messages\"\n                set targetService to 1st service whose service type = iMessage\n                set targetBuddy to buddy \"" ++
    pyShow recipient ++ codes "\" of targetService\n                send \"" ++
    pyShow message ++ codes "\" to targetBuddy\n            end tell\n            "
  match env.osascript script with
  | .ok _ => .ok (okResult (codes "Sent iMessage to " ++ pyShow recipient), st)
  | .error e => .ok (failResult (codes "Failed to send iMessage: " ++ e.msg), st)

/-- `ToolExecutor._send_whatsapp` (tools_executor.py:279): a composite
handler.  It calls `_mac_open_app` (whose result it ignores — that
handler never raises), then drives the UI with pyautogui; any raised UI
step is caught into one aggregate failed result. -/
def sendWhatsapp (env : Env) (st : ExecState) (recipient message : Option PyStr) :
    Except PyError (ToolResult × ExecState) :=
  match macOpenApp env st [("app_name", codes "WhatsApp")] with
  | .error e => .ok (failResult (codes "Failed to send WhatsApp: " ++ e.msg), st)
  | .ok (_ignored, st1) =>
    let ui : Except PyError Unit := do
      let _ ← env.hotkeyCmdN
      let _ ← env.typewrite recipient
      let _ ← env.press (some (codes "return"))
      let _ ← env.typewrite message
      env.press (some (codes "return"))
    match ui with
    | .ok _ =>
      .ok (okResult (codes "Sent WhatsApp message to " ++ pyShow recipient), st1)
    | .error e => .ok (failResult (codes "Failed to send WhatsApp: " ++ e.msg), st1)

/-- `ToolExecutor._send_message` (tools_executor.py:226): dispatches on
`app.lower()` inside its `try`; a missing `app` raises `AttributeError`,
caught into a failed result. -/
def sendMessage (env : Env) (st : ExecState) (p : Params) :
    Except PyError (ToolResult × ExecState) :=
  let recipient := pyGet p "recipient"
  let message := pyGet p "message"
  match pyGet p "app" with
  | none => .ok (failResult (codes "Failed to send message: " ++ noneLowerMsg), st)
  | some a =>
    if pyLower a = codes "imessage" then sendIMessage env st recipient message
    else if pyLower a = codes "whatsapp" then sendWhatsapp env st recipient message
    else .ok (failResult (codes "Unsupported messaging app: " ++ a), st)

/-- The dispatch body of `ToolExecutor.execute_tool` (tools_executor.py:39),
before its surrounding `try`/`except`.  An unknown name raises
`ValueError` (tools_executor.py:55). -/
def executeToolExc (env : Env) (st : ExecState) (toolName : String) (p : Params) :
    Except PyError (ToolResult × ExecState) :=
  if toolName = "mac_open_app" then macOpenApp env st p
  else if toolName = "mac_type_text" then macTypeText env st p
  else if toolName = "mac_press_key" then macPressKey env st p
  else if toolName = "browser_navigate" then browserNavigate env st p
  else if toolName = "browser_click" then browserClick env st p
  else if toolName = "browser_type" then browserType env st p
  else if toolName = "send_message" then sendMessage env st p
  else .error ⟨codes "Unknown tool: " ++ codes toolName⟩

/-- `ToolExecutor.execute_tool` (tools_executor.py:33): the dispatcher's
`except Exception` converts every escaped exception into a failed
result dictionary.  (Every escaping exception is raised before any state
mutation, so the entry state is returned on that path.) -/
def execute_tool (env : Env) (st : ExecState) (toolName : String) (p : Params) :
    ToolResult × ExecState :=
  match executeToolExc env st toolName p with
  | .ok r => r
  | .error e => (failResult e.msg, st)

/-- The `ToolResult` exclusivity invariant claimed by the spec: success
carries a `message` and no `error`; failure carries an `error` and no
`message`. -/
def resultInvariant (r : ToolResult) : Prop :=
  (r.success = true → r.message.isSome = true ∧ r.error = none) ∧
  (r.success = false → r.error.isSome = true ∧ r.message = none)

instance (r : ToolResult) : Decidable (resultInvariant r) := by
  unfold resultInvariant; infer_instance

/-- `resultInvariant` holds for every success dictionary the handlers build. -/
theorem resultInvariant_okResult (m : PyStr) : resultInvariant (okResult m) := by
  simp [resultInvariant, okResult]

/-- `resultInvariant` holds for every failure dictionary the handlers build. -/
theorem resultInvariant_failResult (e : PyStr) : resultInvariant (failResult e) := by
  simp [resultInvariant, failResult]

/-- Every `ToolResult` this `Except` computation can return satisfies the
exclusivity invariant. -/
def okInvariant (x : Except PyError (ToolResult × ExecState)) : Prop :=
  ∀ r st2, x = .ok (r, st2) → resultInvariant r

theorem okInvariant_of_ok {r0 : ToolResult} {st0 : ExecState}
    (h : resultInvariant r0) : okInvariant (.ok (r0, st0)) := by
  intro r st2 he
  injection he with he'
  injection he' with h1 h2
  exact h1 ▸ h

theorem okInvariant_of_error (e : PyError) :
    okInvariant (Except.error (α := ToolResult × ExecState) e) := by
  intro r st2 he
  exact absurd he (by simp)

theorem resultInvariant_okResult_url (m u : PyStr) :
    resultInvariant { okResult m with url := some u } := by
  simp [resultInvariant, okResult]

theorem macOpenApp_invariant (env : Env) (st : ExecState) (p : Params) :
    okInvariant (macOpenApp env st p) := by
  unfold macOpenApp
  try dsimp only
  repeat' split
  all_goals apply okInvariant_of_ok
  all_goals first
    | exact resultInvariant_okResult _
    | exact resultInvariant_failResult _

theorem macTypeText_invariant (env : Env) (st : ExecState) (p : Params) :
    okInvariant (macTypeText env st p) := by
  unfold macTypeText
  try dsimp only
  repeat' split
  all_goals first
    | exact okInvariant_of_error _
    | (apply okInvariant_of_ok; exact resultInvariant_okResult _)
    | (apply okInvariant_of_ok; exact resultInvariant_failResult _)

theorem macPressKey_invariant (env : Env) (st : ExecState) (p : Params) :
    okInvariant (macPressKey env st p) := by
  unfold macPressKey
  try dsimp only
  repeat' split
  all_goals first
    | (apply okInvariant_of_ok; exact resultInvariant_okResult _)
    | (apply okInvariant_of_ok; exact resultInvariant_failResult _)

theorem browserNavigate_invariant (env : Env) (st : ExecState) (p : Params) :
    okInvariant (browserNavigate env st p) := by
  unfold browserNavigate
  try dsimp only
  repeat' split
  all_goals first
    | (apply okInvariant_of_ok; exact resultInvariant_okResult_url _ _)
    | (apply okInvariant_of_ok; exact resultInvariant_okResult _)
    | (apply okInvariant_of_ok; exact resultInvariant_failResult _)

theorem browserClick_invariant (env : Env) (st : ExecState) (p : Params) :
    okInvariant (browserClick env st p) := by
  unfold browserClick
  try dsimp only
  repeat' split
  all_goals first
    | (apply okInvariant_of_ok; exact resultInvariant_okResult _)
    | (apply okInvariant_of_ok; exact resultInvariant_failResult _)

theorem browserType_invariant (env : Env) (st : ExecState) (p : Params) :
    okInvariant (browserType env st p) := by
  unfold browserType
  try dsimp only
  repeat' split
  all_goals first
    | exact okInvariant_of_error _
    | (apply okInvariant_of_ok; exact resultInvariant_okResult _)
    | (apply okInvariant_of_ok; exact resultInvariant_failResult _)

theorem sendIMessage_invariant (env : Env) (st : ExecState)
    (recipient message : Option PyStr) :
    okInvariant (sendIMessage env st recipient message) := by
  unfold sendIMessage
  try dsimp only
  repeat' split
  all_goals first
    | (apply okInvariant_of_ok; exact resultInvariant_okResult _)
    | (apply okInvariant_of_ok; exact resultInvariant_failResult _)

theorem sendWhatsapp_invariant (env : Env) (st : ExecState)
    (recipient message : Option PyStr) :
    okInvariant (sendWhatsapp env st recipient message) := by
  unfold sendWhatsapp
  try dsimp only
  repeat' split
  all_goals first
    | (apply okInvariant_of_ok; exact resultInvariant_okResult _)
    | (apply okInvariant_of_ok; exact resultInvariant_failResult _)

theorem sendMessage_invariant (env : Env) (st : ExecState) (p : Params) :
    okInvariant (sendMessage env st p) := by
  unfold sendMessage
  try dsimp only
  repeat' split
  all_goals first
    | exact sendIMessage_invariant _ _ _ _
    | exact sendWhatsapp_invariant _ _ _ _
    | (apply okInvariant_of_ok; exact resultInvariant_okResult _)
    | (apply okInvariant_of_ok; exact resultInvariant_failResult _)

theorem executeToolExc_invariant (env : Env) (st : ExecState)
    (toolName : String) (p : Params) :
    okInvariant (executeToolExc env st toolName p) := by
  unfold executeToolExc
  try dsimp only
  repeat' split
  all_goals first
    | exact macOpenApp_invariant _ _ _
    | exact macTypeText_invariant _ _ _
    | exact macPressKey_invariant _ _ _
    | exact browserNavigate_invariant _ _ _
    | exact browserClick_invariant _ _ _
    | exact browserType_invariant _ _ _
    | exact sendMessage_invariant _ _ _
    | exact okInvariant_of_error _

/-- C4: for every tool name and parameter mapping — and every behaviour
of the automation backends, including backends that raise — the value
`execute_tool` returns is a `ToolResult` dictionary (the function is
total into `ToolResult × ExecState`: every exception escaping a handler
is caught by the dispatcher and converted to a failed result), and that
result satisfies the exclusivity invariant: success carries a `message`
and no `error`, failure carries an `error` and no `message`. -/
theorem executeTool_result_invariant (env : Env) (st : ExecState)
    (toolName : String) (p : Params) :
    resultInvariant (execute_tool env st toolName p).1 := by
  unfold execute_tool
  rcases hx : executeToolExc env st toolName p with e | ⟨r, st2⟩
  · exact resultInvariant_failResult _
  · exact executeToolExc_invariant env st toolName p r st2 hx

/-! ## `agent.py`: planner -/

/-- One entry of `CometAgent.conversation_history`. -/
structure ChatMsg where
  role : String
  content : PyStr
deriving DecidableEq

/-- One tool call named by the planning service's response
(`tool_call.function.name` with its already-parsed JSON arguments). -/
structure ToolCallMsg where
  funcName : String
  args : Params
deriving DecidableEq

/-- The planning service's response message (`response.choices[0].message`):
a possibly-empty list of tool calls (an absent `tool_calls` is the empty
list) and the free-text `content`. -/
structure PlannerMessage where
  toolCalls : List ToolCallMsg
  content : Option PyStr
deriving DecidableEq

/-- The members of the `ToolType` enum (agent.py:15): the set of names
`ToolType(func_name)` accepts. -/
def toolTypeValues : List String :=
  ["browser_navigate", "browser_click", "browser_type", "browser_screenshot",
   "mac_open_app", "mac_close_app", "mac_type_text", "mac_press_key",
   "send_message", "wait"]

/-- Python `repr` of the parsed argument dict, as interpolated into the
`Tool.description` f-string. -/
def dictRepr (p : Params) : PyStr :=
  codes "\x7b" ++
    (List.intercalate (codes ", ")
      (p.map (fun kv => codes "'" ++ codes kv.1 ++ codes "': '" ++ kv.2 ++ codes "'"))) ++
  codes "\x7d"

/-- The `Tool` dataclass (agent.py:28).  `ttype` is the `ToolType` member,
which always coincides with `name` once construction succeeded. -/
structure Tool where
  name : String
  ttype : String
  parameters : Params
  description : PyStr
deriving DecidableEq

/-- The `Task` dataclass (agent.py:36). -/
structure Task where
  id : PyStr
  description : PyStr
  status : String
  steps : List Tool
  result : Option PyStr := none
deriving DecidableEq

/-- The loop of agent.py:199-210: each tool call is converted in order;
`ToolType(func_name)` raises `ValueError` at the FIRST name that is not
a `ToolType` member, so no later call is looked at. -/
def buildSteps : List ToolCallMsg → Except PyError (List Tool)
  | [] => .ok []
  | tc :: rest =>
    if toolTypeValues.contains tc.funcName then
      match buildSteps rest with
      | .ok ts =>
        .ok ({ name := tc.funcName, ttype := tc.funcName, parameters := tc.args,
               description := codes "Execute " ++ codes tc.funcName ++
                 codes " with " ++ dictRepr tc.args } :: ts)
      | .error e => .error e
    else .error ⟨codes "'" ++ codes tc.funcName ++ codes "' is not a valid ToolType"⟩

/-- `CometAgent.process_voice_command` (agent.py:151), given the planning
service's response as an oracle.  The user command is appended to the
conversation history FIRST (agent.py:158), so the append survives even
when tool-call conversion raises; the history is returned alongside the
`Except` outcome.  Nothing else in the program ever writes to
`conversation_history`. -/
def processVoiceCommand (history : List ChatMsg) (command : PyStr)
    (resp : PlannerMessage) : Except PyError Task × List ChatMsg :=
  let history' := history ++ [⟨"user", command⟩]
  match resp.toolCalls with
  | [] =>
    (.ok { id := codes "task_" ++ natCodes history'.length, description := command,
           status := "completed", steps := [], result := resp.content }, history')
  | _ :: _ =>
    match buildSteps resp.toolCalls with
    | .error e => (.error e, history')
    | .ok steps =>
      (.ok { id := codes "task_" ++ natCodes history'.length, description := command,
             status := "pending", steps := steps }, history')

/-! ## `main.py`: the per-command orchestrator cycle -/

/-- A call into the `VoiceResponder` API made by the orchestrator. -/
inductive SpeakCall where
  | speak (text : PyStr)
  | speakErrorCall (msg : PyStr)
  | speakTaskCompleteCall (desc : PyStr)
deriving DecidableEq

/-- The utterance each `VoiceResponder` call renders
(voice_responder.py:101-117, including the Python-truthiness fallbacks). -/
def renderSpeak : SpeakCall → PyStr
  | .speak t => t
  | .speakErrorCall m =>
    if m ≠ [] then codes "Error: " ++ m else codes "Sorry, I encountered an error"
  | .speakTaskCompleteCall d =>
    if d ≠ [] then codes "Done. " ++ d else codes "Task completed"

/-- One observable action of a command-processing cycle: speaking, or
invoking a tool handler. -/
inductive CycleEv where
  | say (c : SpeakCall)
  | invoke (toolName : String) (ps : Params)
deriving DecidableEq

/-- The tool-handler invocations among a cycle's events. -/
def invokedOf (evs : List CycleEv) : List (String × Params) :=
  evs.filterMap (fun e =>
    match e with
    | .invoke n ps => some (n, ps)
    | .say _ => none)

/-- An executor as seen by the orchestrator: `main.py` holds
`self.executor` and calls `execute_tool(name, parameters)` on it; `σ` is
the executor's private state.  (`VA.execute_tool env` over `ExecState`
is one such executor.) -/
abbrev Executor (σ : Type) := σ → String → Params → ToolResult × σ

/-- The straight-line sequence of results the executor would produce on
a given step list (the executor state threads deterministically, so the
prefix up to the first failure is what the fail-fast loop observes). -/
def stepResults {σ : Type} (ex : Executor σ) : σ → List Tool → List ToolResult
  | _, [] => []
  | st, t :: rest =>
    let r := ex st t.name t.parameters
    r.1 :: stepResults ex r.2 rest

/-- The step-execution loop of `VoiceAssistant._process_command_async`
(main.py:114-128): run tools in order; on the first result whose
`success` is falsy, speak the result's `error` (default
`"Unknown error"`), set status `failed` and return; otherwise finish
with status `completed`. -/
def runSteps {σ : Type} (ex : Executor σ) : σ → List Tool → List CycleEv × String × σ
  | st, [] => ([], "completed", st)
  | st, t :: rest =>
    let r := ex st t.name t.parameters
    if r.1.success then
      let rec' := runSteps ex r.2 rest
      (.invoke t.name t.parameters :: rec'.1, rec'.2.1, rec'.2.2)
    else
      ([.invoke t.name t.parameters,
        .say (.speakErrorCall ((r.1.error).getD (codes "Unknown error")))],
       "failed", r.2)

/-- The outcome of one `_process_command_async` cycle: the responder and
executor calls it made, the `task` local variable (if the planner call
returned before raising), the executor state, and the conversation
history afterwards. -/
structure CycleResult (σ : Type) where
  events : List CycleEv
  task : Option Task
  exState : σ
  history : List ChatMsg

/-- The final `Task.status` visible after a cycle, when a Task exists. -/
def cycleStatus {σ : Type} (cr : CycleResult σ) : Option String :=
  cr.task.map (fun t => t.status)

/-- `VoiceAssistant._process_command_async` (main.py:93-139).  The
`except` block catches anything the planner raised and speaks
`"Failed to process command: " + str(e)`; in that path the `task`
variable was never assigned. -/
def processCommandAsync {σ : Type} (ex : Executor σ) (st : σ)
    (history : List ChatMsg) (command : PyStr) (resp : PlannerMessage) :
    CycleResult σ :=
  match processVoiceCommand history command resp with
  | (.error e, h') =>
    { events := [.say (.speakErrorCall (codes "Failed to process command: " ++ e.msg))],
      task := none, exState := st, history := h' }
  | (.ok task, h') =>
    match task.steps with
    | [] =>
      let ans : PyStr :=
        match task.result with
        | some r => if r ≠ [] then r else codes "I'm not sure how to help with that"
        | none => codes "I'm not sure how to help with that"
      { events := [.say (.speak ans)], task := some task, exState := st, history := h' }
    | _ :: _ =>
      let task1 : Task := { task with status := "in_progress" }
      let out := runSteps ex st task1.steps
      let task2 : Task := { task1 with status := out.2.1 }
      let evs :=
        if out.2.1 = "completed" then
          out.1 ++ [.say (.speakTaskCompleteCall task2.description)]
        else out.1
      { events := evs, task := some task2, exState := out.2.2, history := h' }

/-- `VoiceAssistant._on_command` (main.py:80): acknowledge with
`speak("Working on it")`, then run the cycle synchronously
(`asyncio.run`), all on the listener's thread. -/
def onCommand {σ : Type} (ex : Executor σ) (st : σ) (history : List ChatMsg)
    (command : PyStr) (resp : PlannerMessage) : CycleResult σ :=
  let cr := processCommandAsync ex st history command resp
  { cr with events := .say (.speak (codes "Working on it")) :: cr.events }

/-! ## Supporting lemmas for the cycle theorems -/

theorem pyContains_nil (hay : PyStr) : pyContains hay [] = true := by
  cases hay with
  | nil => rfl
  | cons c t => simp [pyContains, List.isPrefixOf]

/-- A string occurs as a substring of any concatenation around it. -/
theorem pyContains_append_self (a p b : PyStr) :
    pyContains (a ++ (p ++ b)) p = true := by
  induction a with
  | nil =>
    cases p with
    | nil => simpa using pyContains_nil b
    | cons c q =>
      simp only [List.nil_append, pyContains, List.cons_append, Bool.or_eq_true]
      left
      rw [List.isPrefixOf_iff_prefix]
      exact ⟨b, by simp⟩
  | cons c a' ih =>
    simp only [List.cons_append, pyContains, Bool.or_eq_true]
    right
    exact ih

theorem stepResults_length {σ : Type} (ex : Executor σ) :
    ∀ (st : σ) (steps : List Tool), (stepResults ex st steps).length = steps.length := by
  intro st steps
  induction steps generalizing st with
  | nil => rfl
  | cons t rest ih => simp [stepResults, ih]

/-- The fail-fast loop of main.py:115-128: with a first failure at index
`k`, exactly steps `0..k` are dispatched, the loop's status is `failed`,
and the loop's last responder call is `speak_error` of step `k`'s
`error`. -/
theorem runSteps_failfast {σ : Type} (ex : Executor σ) :
    ∀ (steps : List Tool) (st : σ) (k : Nat) (rk : ToolResult),
      (stepResults ex st steps)[k]? = some rk →
      (∀ j rj, j < k → (stepResults ex st steps)[j]? = some rj → rj.success = true) →
      rk.success = false →
      ∃ st2, runSteps ex st steps =
        ((steps.take (k+1)).map (fun t => CycleEv.invoke t.name t.parameters) ++
          [.say (.speakErrorCall ((rk.error).getD (codes "Unknown error")))],
         "failed", st2) := by
  intro steps
  induction steps with
  | nil => intro st k rk hk _ _; simp [stepResults] at hk
  | cons t rest ih =>
    intro st k rk hk hpre hfail
    cases k with
    | zero =>
      simp only [stepResults, List.getElem?_cons_zero, Option.some.injEq] at hk
      subst hk
      refine ⟨(ex st t.name t.parameters).2, ?_⟩
      simp [runSteps, hfail]
    | succ k' =>
      have hsucc : (ex st t.name t.parameters).1.success = true := by
        have := hpre 0 (ex st t.name t.parameters).1 (Nat.succ_pos k')
        exact this (by simp [stepResults])
      simp only [stepResults, List.getElem?_cons_succ] at hk
      have hpre' : ∀ j rj, j < k' →
          (stepResults ex (ex st t.name t.parameters).2 rest)[j]? = some rj →
          rj.success = true := by
        intro j rj hj hg
        exact hpre (j+1) rj (by omega) (by simpa [stepResults] using hg)
      obtain ⟨st2, hrec⟩ := ih (ex st t.name t.parameters).2 k' rk hk hpre' hfail
      refine ⟨st2, ?_⟩
      simp [runSteps, hsucc, hrec]

theorem invokedOf_invoke_map (l : List Tool) :
    invokedOf (l.map (fun t => CycleEv.invoke t.name t.parameters)) =
      l.map (fun t => (t.name, t.parameters)) := by
  induction l with
  | nil => rfl
  | cons t rest ih => simp [invokedOf, List.filterMap_cons] at ih ⊢; exact ih

theorem invokedOf_append (l1 l2 : List CycleEv) :
    invokedOf (l1 ++ l2) = invokedOf l1 ++ invokedOf l2 := by
  simp [invokedOf]

/-- `buildSteps` raises at the FIRST tool call whose name is not a
`ToolType` member, with `ValueError`'s message naming it. -/
theorem buildSteps_first_invalid (pre post : List ToolCallMsg) (name : String)
    (args : Params)
    (hpre : ∀ tc ∈ pre, tc.funcName ∈ toolTypeValues)
    (hbad : name ∉ toolTypeValues) :
    buildSteps (pre ++ ⟨name, args⟩ :: post) =
      .error ⟨codes "'" ++ codes name ++ codes "' is not a valid ToolType"⟩ := by
  induction pre with
  | nil => simp [buildSteps, hbad]
  | cons tc pre' ih =>
    have htc := hpre tc (by simp)
    have ih' := ih (fun x hx => hpre x (by simp [hx]))
    simp [buildSteps, htc, ih']

/-! ## C1, C2, C3, C9: theorems about the orchestrator cycle -/

/-- C1: for every plan with a non-empty tool sequence, the orchestrator
executes the steps in order one at a time; if step `k`'s result has a
falsy `success`, the handlers invoked are exactly steps `0..k` (steps
`k+1..n` are never dispatched), the Task's `status` field ends
`"failed"`, and the error reported through `speak_error` is step `k`'s
`ToolResult` error string. -/
theorem orchestrator_failfast {σ : Type} (ex : Executor σ) (st : σ)
    (history : List ChatMsg) (command : PyStr) (resp : PlannerMessage)
    (task : Task) (h2 : List ChatMsg) (k : Nat) (rk : ToolResult)
    (htask : processVoiceCommand history command resp = (.ok task, h2))
    (hne : task.steps ≠ [])
    (hk : (stepResults ex st task.steps)[k]? = some rk)
    (hpre : ∀ j rj, j < k → (stepResults ex st task.steps)[j]? = some rj →
      rj.success = true)
    (hfail : rk.success = false) :
    invokedOf (processCommandAsync ex st history command resp).events =
      (task.steps.take (k+1)).map (fun t => (t.name, t.parameters)) ∧
    cycleStatus (processCommandAsync ex st history command resp) = some "failed" ∧
    (processCommandAsync ex st history command resp).events.getLast? =
      some (.say (.speakErrorCall ((rk.error).getD (codes "Unknown error")))) ∧
    ∀ e, rk.error = some e →
      (processCommandAsync ex st history command resp).events.getLast? =
        some (.say (.speakErrorCall e)) := by
  obtain ⟨tid, tdesc, tstat, tsteps, tres⟩ := task
  dsimp only at hne hk hpre ⊢
  cases tsteps with
  | nil => exact absurd rfl hne
  | cons t0 rest =>
    obtain ⟨st2, hrun⟩ := runSteps_failfast ex (t0 :: rest) st k rk hk hpre hfail
    unfold processCommandAsync
    rw [htask]
    dsimp only
    rw [hrun]
    dsimp only
    rw [if_neg (by decide)]
    refine ⟨?_, ?_, ?_, ?_⟩
    · rw [invokedOf_append, invokedOf_invoke_map]
      simp [invokedOf]
    · rfl
    · rw [List.getLast?_append_cons]
      rfl
    · intro e he
      rw [List.getLast?_append_cons, he]
      rfl

/-- Inputs used by the closed instantiations below: an executor that
always fails, one that always succeeds, and concrete planner
responses. -/
def exFailW : Executor Unit := fun u _ _ => (failResult (codes "boom"), u)

def exOkW : Executor Unit := fun u _ _ => (okResult (codes "ok"), u)

def respPlanW : PlannerMessage :=
  ⟨[⟨"mac_open_app", [("app_name", codes "Chrome")]⟩,
    ⟨"browser_navigate", [("url", codes "tiktok.com")]⟩], none⟩

def taskW : Task :=
  ((processVoiceCommand [] (codes "open chrome and go to tiktok") respPlanW).1).toOption.getD
    ⟨[], [], "", [], none⟩

/-- C1 witness: a concrete two-step plan whose first step fails: only
step 0 is invoked, status ends `failed`, and the reported error is
`boom`. -/
theorem orchestrator_failfast_witness :
    invokedOf (processCommandAsync exFailW ()
        [] (codes "open chrome and go to tiktok") respPlanW).events =
      (taskW.steps.take 1).map (fun t => (t.name, t.parameters)) ∧
    cycleStatus (processCommandAsync exFailW ()
        [] (codes "open chrome and go to tiktok") respPlanW) = some "failed" ∧
    (processCommandAsync exFailW ()
        [] (codes "open chrome and go to tiktok") respPlanW).events.getLast? =
      some (.say (.speakErrorCall (((failResult (codes "boom")).error).getD
        (codes "Unknown error")))) ∧
    ∀ e, (failResult (codes "boom")).error = some e →
      (processCommandAsync exFailW ()
          [] (codes "open chrome and go to tiktok") respPlanW).events.getLast? =
        some (.say (.speakErrorCall e)) := by
  exact orchestrator_failfast exFailW () [] (codes "open chrome and go to tiktok")
    respPlanW taskW
    ((processVoiceCommand [] (codes "open chrome and go to tiktok") respPlanW).2)
    0 (failResult (codes "boom"))
    (by rfl) (by decide) (by decide)
    (fun j rj hj _ => absurd hj (Nat.not_lt_zero j)) (by decide)

/-- C2 (amended): a planning-service response naming a tool outside the
`ToolType` members makes planning raise a `ValueError` naming the
offending tool; the cycle invokes no tool handler and ends in the
error path speaking `"Failed to process command: ..."`.  No `Task` is
created, so no status field is ever set (in particular none ends
`"failed"`). -/
theorem cycle_unknown_tool {σ : Type} (ex : Executor σ) (st : σ)
    (history : List ChatMsg) (command : PyStr) (resp : PlannerMessage)
    (pre post : List ToolCallMsg) (name : String) (args : Params)
    (hsplit : resp.toolCalls = pre ++ ⟨name, args⟩ :: post)
    (hpre : ∀ tc ∈ pre, tc.funcName ∈ toolTypeValues)
    (hbad : name ∉ toolTypeValues) :
    (processCommandAsync ex st history command resp).events =
      [.say (.speakErrorCall (codes "Failed to process command: " ++
        (codes "'" ++ codes name ++ codes "' is not a valid ToolType")))] ∧
    invokedOf (processCommandAsync ex st history command resp).events = [] ∧
    (processCommandAsync ex st history command resp).task = none ∧
    pyContains (codes "Failed to process command: " ++
      (codes "'" ++ codes name ++ codes "' is not a valid ToolType"))
      (codes name) = true := by
  have hb := buildSteps_first_invalid pre post name args hpre hbad
  rw [← hsplit] at hb
  obtain ⟨y, ys, hcons⟩ : ∃ y ys, resp.toolCalls = y :: ys := by
    cases pre with
    | nil => exact ⟨_, _, hsplit⟩
    | cons a b => exact ⟨_, _, by rw [hsplit]; rfl⟩
  rw [hcons] at hb
  unfold processCommandAsync processVoiceCommand
  rw [hcons, hb]
  refine ⟨by simp, by simp [invokedOf], by simp, ?_⟩
  have : codes "Failed to process command: " ++
      (codes "'" ++ codes name ++ codes "' is not a valid ToolType") =
      (codes "Failed to process command: " ++ codes "'") ++
        (codes name ++ codes "' is not a valid ToolType") := by
    simp
  rw [this]
  exact pyContains_append_self _ _ _

def respBadW : PlannerMessage := ⟨[⟨"frobnicate", []⟩], none⟩

/-- C2 witness: concrete instantiation at the unknown tool name
`frobnicate`. -/
theorem cycle_unknown_tool_witness :
    (processCommandAsync exOkW () [] (codes "do it") respBadW).events =
      [.say (.speakErrorCall (codes "Failed to process command: " ++
        (codes "'" ++ codes "frobnicate" ++ codes "' is not a valid ToolType")))] ∧
    invokedOf (processCommandAsync exOkW () [] (codes "do it") respBadW).events = [] ∧
    (processCommandAsync exOkW () [] (codes "do it") respBadW).task = none ∧
    pyContains (codes "Failed to process command: " ++
      (codes "'" ++ codes "frobnicate" ++ codes "' is not a valid ToolType"))
      (codes "frobnicate") = true := by
  exact cycle_unknown_tool exOkW () [] (codes "do it") respBadW [] []
    "frobnicate" [] rfl (by simp) (by decide)

/-- C2 counterexample to the claim as stated: on an unknown tool name no
`Task` exists at the end of the cycle, so its status is `none`, not
`"failed"` (the `task` variable is never assigned before the exception
is caught). -/
theorem cycle_unknown_tool_counterexample :
    cycleStatus (processCommandAsync exOkW () [] (codes "do it") respBadW) = none ∧
    cycleStatus (processCommandAsync exOkW () [] (codes "do it") respBadW) ≠
      some "failed" ∧
    invokedOf (processCommandAsync exOkW () [] (codes "do it") respBadW).events = [] := by
  decide

/-- C3: when the plan has an empty tool sequence, the orchestrator
invokes no tool handler, the Task's status ends `completed`, a non-empty
direct answer is spoken as-is, and an empty or absent answer falls back
to the generic reply. -/
theorem cycle_direct_answer {σ : Type} (ex : Executor σ) (st : σ)
    (history : List ChatMsg) (command : PyStr) (resp : PlannerMessage)
    (htc : resp.toolCalls = []) :
    invokedOf (processCommandAsync ex st history command resp).events = [] ∧
    cycleStatus (processCommandAsync ex st history command resp) = some "completed" ∧
    (∀ a, resp.content = some a → a ≠ [] →
      (processCommandAsync ex st history command resp).events = [.say (.speak a)]) ∧
    ((resp.content = none ∨ resp.content = some []) →
      (processCommandAsync ex st history command resp).events =
        [.say (.speak (codes "I'm not sure how to help with that"))]) := by
  unfold processCommandAsync processVoiceCommand
  rw [htc]
  refine ⟨by simp [invokedOf], by simp [cycleStatus], ?_, ?_⟩
  · intro a ha hne
    simp [ha, hne]
  · intro hcase
    rcases hcase with hc | hc <;> simp [hc]

def respAnsW : PlannerMessage := ⟨[], some (codes "It is sunny")⟩

/-- C3 witness: a concrete direct-answer response. -/
theorem cycle_direct_answer_witness :
    invokedOf (processCommandAsync exOkW () [] (codes "hello") respAnsW).events = [] ∧
    cycleStatus (processCommandAsync exOkW () [] (codes "hello") respAnsW) =
      some "completed" ∧
    (processCommandAsync exOkW () [] (codes "hello") respAnsW).events =
      [.say (.speak (codes "It is sunny"))] := by
  obtain ⟨h1, h2, h3, _⟩ := cycle_direct_answer exOkW () [] (codes "hello") respAnsW rfl
  exact ⟨h1, h2, h3 (codes "It is sunny") rfl (by decide)⟩

/-- Every planner call always appends exactly the user command. -/
theorem processVoiceCommand_history (h : List ChatMsg) (cmd : PyStr)
    (resp : PlannerMessage) :
    (processVoiceCommand h cmd resp).2 = h ++ [⟨"user", cmd⟩] := by
  unfold processVoiceCommand
  rcases htc : resp.toolCalls with _ | ⟨y, ys⟩
  · simp
  · rcases hb : buildSteps (y :: ys) with e | ts <;> simp [hb]

/-- Conversation history after a sequence of planning calls. -/
def planHistoryAfter (history : List ChatMsg)
    (calls : List (PyStr × PlannerMessage)) : List ChatMsg :=
  calls.foldl (fun h c => (processVoiceCommand h c.1 c.2).2) history

theorem planHistoryAfter_eq (calls : List (PyStr × PlannerMessage)) :
    ∀ history : List ChatMsg,
      planHistoryAfter history calls =
        history ++ calls.map (fun c => ChatMsg.mk "user" c.1) := by
  induction calls with
  | nil => intro history; simp [planHistoryAfter]
  | cons c rest ih =>
    intro history
    have hstep : planHistoryAfter history (c :: rest) =
        planHistoryAfter ((processVoiceCommand history c.1 c.2).2) rest := rfl
    rw [hstep, ih, processVoiceCommand_history]
    simp

/-- C9 (amended): each planning call appends exactly the user command —
and only the user command — to the process-wide conversation history;
the history grows by one entry per call without bound, and no entry is
ever pruned or removed. -/
theorem planner_history_growth (history : List ChatMsg) (command : PyStr)
    (resp : PlannerMessage) (calls : List (PyStr × PlannerMessage)) :
    (processVoiceCommand history command resp).2 = history ++ [⟨"user", command⟩] ∧
    planHistoryAfter history calls =
      history ++ calls.map (fun c => ChatMsg.mk "user" c.1) ∧
    (planHistoryAfter history calls).length = history.length + calls.length := by
  refine ⟨processVoiceCommand_history _ _ _, planHistoryAfter_eq _ _, ?_⟩
  rw [planHistoryAfter_eq]
  simp

/-- C9 counterexample to the claim as stated: after a full cycle on a
command that produced a tool plan, the history holds ONLY the user
command — the plan's textual trace was never appended (there is no
assistant entry, and `conversation_history` is written nowhere else). -/
theorem planner_history_no_trace_counterexample :
    (processCommandAsync exOkW () [] (codes "open chrome and go to tiktok")
        respPlanW).history =
      [⟨"user", codes "open chrome and go to tiktok"⟩] ∧
    ((processCommandAsync exOkW () [] (codes "open chrome and go to tiktok")
        respPlanW).history.all (fun m => m.role == "user")) = true := by
  decide

/-! ## `voice_listener.py`: wake-word detection (C5, C10) -/

/-- What one iteration of the listener does with a recognized
utterance. -/
inductive ListenAction where
  | emit (command : PyStr)
  | awaitFollowUp
  | ignore
deriving DecidableEq

/-- The wake-word handling of `VoiceListener._listen_loop`
(voice_listener.py:77-87): case-insensitive substring test, then
`text.lower().replace(self.wake_word, "").strip()` to derive the
residual command; emit it if non-empty, otherwise wait for a follow-up
utterance.  `wake` is `self.wake_word`, already lower-cased by the
constructor (voice_listener.py:23). -/
def listenStep (wake text : PyStr) : ListenAction :=
  if pyContains (pyLower text) wake then
    let command := pyStrip (pyReplace (pyLower text) wake [])
    if command ≠ [] then .emit command else .awaitFollowUp
  else .ignore

/-- One `_listen_loop` iteration including the `if text:` truthiness
guard (voice_listener.py:73); `none` models an unrecognized utterance. -/
def listenLoopStep (wake : PyStr) (recognized : Option PyStr) : ListenAction :=
  match recognized with
  | none => .ignore
  | some t => if t = [] then .ignore else listenStep wake t

/-- `VoiceListener._wait_for_command` (voice_listener.py:96-113): the
follow-up capture emits the recognized text verbatim (no lowering, no
stripping), guarded only by Python truthiness. -/
def waitForCommand (recognized : Option PyStr) : ListenAction :=
  match recognized with
  | none => .ignore
  | some c => if c = [] then .ignore else .emit c

/-- Modelled from the spec's words, for comparison only (NOT from the
source): removal of a SINGLE occurrence — the first match — of the wake
phrase, as the spec describes wake-word stripping.  The source instead
uses Python `str.replace`, which removes every occurrence. -/
def removeFirstOccurrence : PyStr → PyStr → PyStr
  | [], _ => []
  | c :: t, pat =>
    if pat ≠ [] ∧ pat.isPrefixOf (c :: t) then (c :: t).drop pat.length
    else c :: removeFirstOccurrence t pat

/-! Auxiliary character-level lemmas. -/

theorem pyLowerChar_idem (c : Nat) : pyLowerChar (pyLowerChar c) = pyLowerChar c := by
  unfold pyLowerChar
  split
  · next h => rw [if_neg (by omega)]
  · rfl

theorem lower_fixed_of_mem_pyLower {s : PyStr} {c : Nat} (h : c ∈ pyLower s) :
    pyLowerChar c = c := by
  obtain ⟨a, _, rfl⟩ := List.mem_map.mp h
  exact pyLowerChar_idem a

theorem pyLower_eq_self_of_fixed {s : PyStr} (h : ∀ c ∈ s, pyLowerChar c = c) :
    pyLower s = s := by
  induction s with
  | nil => rfl
  | cons c t ih =>
    simp only [pyLower, List.map_cons] at ih ⊢
    rw [h c (by simp), ih (fun x hx => h x (by simp [hx]))]

/-- With an empty replacement, every character the replacement core
returns comes from the input. -/
theorem mem_pyReplaceF_nil (pat : PyStr) :
    ∀ (fuel : Nat) (s : PyStr), ∀ c ∈ pyReplaceF pat [] fuel s, c ∈ s := by
  intro fuel
  induction fuel with
  | zero =>
    intro s c hc
    cases s with
    | nil => exact absurd hc (by simp [pyReplaceF])
    | cons c0 t => exact hc
  | succ n ih =>
    intro s c hc
    cases s with
    | nil => exact absurd hc (by simp [pyReplaceF])
    | cons c0 t =>
      simp only [pyReplaceF] at hc
      split at hc
      · simp only [List.nil_append] at hc
        exact List.drop_subset _ _ (ih _ c hc)
      · rcases List.mem_cons.mp hc with h0 | hmem
        · simp [h0]
        · exact List.mem_cons_of_mem c0 (ih t c hmem)

/-- With an empty replacement, every character of the result of
`pyReplace` comes from the input. -/
theorem mem_pyReplace_nil (pat : PyStr) (s : PyStr) :
    ∀ c ∈ pyReplace s pat [], c ∈ s := by
  intro c hc
  unfold pyReplace at hc
  split at hc
  · exact hc
  · exact mem_pyReplaceF_nil pat s.length s c hc

theorem mem_pyStrip {s : PyStr} : ∀ c ∈ pyStrip s, c ∈ s := by
  intro c hc
  unfold pyStrip at hc
  rw [List.mem_reverse] at hc
  have h1 := (List.dropWhile_sublist (l := (s.dropWhile isPySpace).reverse)
    (p := isPySpace)).subset hc
  rw [List.mem_reverse] at h1
  exact (List.dropWhile_sublist (l := s) (p := isPySpace)).subset h1

/-- C5 (amended): wake-word detection is a case-insensitive substring
match against the full utterance; on a match, ALL occurrences of the
wake phrase are removed from the lower-cased utterance (Python
`str.replace` removes every occurrence, not only the first) and the
result is whitespace-stripped to give the residual command; a non-empty
residual is emitted, and a wake-word-only utterance (empty residual)
triggers a follow-up capture rather than an empty command. -/
theorem listener_wake_word (wakeWord text : PyStr) :
    (∀ t2, pyLower t2 = pyLower text →
      listenStep (pyLower wakeWord) t2 = listenStep (pyLower wakeWord) text) ∧
    (pyContains (pyLower text) (pyLower wakeWord) = false →
      listenStep (pyLower wakeWord) text = .ignore) ∧
    (pyContains (pyLower text) (pyLower wakeWord) = true →
      (pyStrip (pyReplace (pyLower text) (pyLower wakeWord) []) ≠ [] →
        listenStep (pyLower wakeWord) text =
          .emit (pyStrip (pyReplace (pyLower text) (pyLower wakeWord) []))) ∧
      (pyStrip (pyReplace (pyLower text) (pyLower wakeWord) []) = [] →
        listenStep (pyLower wakeWord) text = .awaitFollowUp)) ∧
    (∀ c, listenStep (pyLower wakeWord) text = .emit c → c ≠ []) := by
  refine ⟨?_, ?_, ?_, ?_⟩
  · intro t2 h2
    unfold listenStep
    rw [h2]
  · intro hnc
    unfold listenStep
    rw [hnc]
    simp
  · intro hc
    constructor
    · intro hne
      unfold listenStep
      rw [hc]
      simp [hne]
    · intro hres
      unfold listenStep
      rw [hc]
      simp [hres]
  · intro c hcmd
    unfold listenStep at hcmd
    split at hcmd
    · dsimp only at hcmd
      split at hcmd
      · next hne =>
        cases hcmd
        exact hne
      · exact absurd hcmd (by simp)
    · exact absurd hcmd (by simp)

/-- C5 witness: the spec's own examples.  `"Hey Assistant open chrome"`
emits `"open chrome"`, and the wake-word-only utterance
`"HEY ASSISTANT"` triggers a follow-up capture. -/
theorem listener_wake_word_witness :
    listenStep (pyLower (codes "hey assistant")) (codes "Hey Assistant open chrome") =
      .emit (codes "open chrome") ∧
    listenStep (pyLower (codes "hey assistant")) (codes "HEY ASSISTANT") =
      .awaitFollowUp := by
  constructor
  · have h := ((listener_wake_word (codes "hey assistant")
      (codes "Hey Assistant open chrome")).2.2.1 (by decide)).1 (by decide)
    rw [h]
    decide
  · exact ((listener_wake_word (codes "hey assistant")
      (codes "HEY ASSISTANT")).2.2.1 (by decide)).2 (by decide)

/-- C5 counterexample to "single occurrence, first match": on the
utterance `"hey assistant hey assistant open chrome"` the code removes
BOTH occurrences of the wake phrase and emits `"open chrome"`, whereas
removing only the first occurrence (as the claim states) would leave
`"hey assistant open chrome"`. -/
theorem listener_single_occurrence_counterexample :
    listenStep (pyLower (codes "hey assistant"))
        (codes "hey assistant hey assistant open chrome") =
      .emit (codes "open chrome") ∧
    pyStrip (removeFirstOccurrence
        (pyLower (codes "hey assistant hey assistant open chrome"))
        (pyLower (codes "hey assistant"))) =
      codes "hey assistant open chrome" ∧
    codes "open chrome" ≠ codes "hey assistant open chrome" := by
  decide

/-- C10: a command emitted from a wake-word utterance with residual text
is the fully lower-cased residual (the original casing is lost), while a
command captured by the follow-up path after a wake-word-only utterance
is delivered with its original casing preserved (emitted verbatim). -/
theorem listener_casing (wakeWord text : PyStr) :
    (∀ c, listenLoopStep (pyLower wakeWord) (some text) = .emit c →
      pyLower c = c ∧
      c = pyStrip (pyReplace (pyLower text) (pyLower wakeWord) [])) ∧
    (∀ t, t ≠ [] → waitForCommand (some t) = .emit t) := by
  constructor
  · intro c hc
    unfold listenLoopStep at hc
    dsimp only at hc
    by_cases ht : text = []
    · rw [if_pos ht] at hc
      exact absurd hc (by simp)
    · rw [if_neg ht] at hc
      unfold listenStep at hc
      split at hc
      · dsimp only at hc
        split at hc
        · cases hc
          refine ⟨?_, rfl⟩
          apply pyLower_eq_self_of_fixed
          intro x hx
          exact lower_fixed_of_mem_pyLower
            (mem_pyReplace_nil _ _ x (mem_pyStrip x hx))
        · exact absurd hc (by simp)
      · exact absurd hc (by simp)
  · intro t ht
    unfold waitForCommand
    dsimp only
    rw [if_neg ht]

/-- C10 witness: `"Hey Assistant OPEN Chrome"` emits the lower-cased
residual `"open chrome"`, while the follow-up path emits
`"OPEN Chrome"` verbatim. -/
theorem listener_casing_witness :
    (pyLower (codes "open chrome") = codes "open chrome" ∧
      codes "open chrome" = pyStrip (pyReplace
        (pyLower (codes "Hey Assistant OPEN Chrome"))
        (pyLower (codes "hey assistant")) [])) ∧
    waitForCommand (some (codes "OPEN Chrome")) = .emit (codes "OPEN Chrome") := by
  constructor
  · exact (listener_casing (codes "hey assistant")
      (codes "Hey Assistant OPEN Chrome")).1 (codes "open chrome") (by decide)
  · exact (listener_casing (codes "hey assistant")
      (codes "Hey Assistant OPEN Chrome")).2 (codes "OPEN Chrome") (by decide)

/-! ## C7: the orchestrator serializes commands

In the source, every recognized command is handled by a synchronous
callback on the listener's own thread (voice_listener.py:143 calls
`self.callback(command)` directly, and main.py:91 runs the whole cycle
with `asyncio.run` before returning), so command cycles compose
sequentially: the next utterance cannot even be captured until the
current cycle has finished. -/

/-- System-level events, tagged with the ordinal of the command whose
cycle produced them. -/
inductive SysEv where
  | cycleStart (cid : Nat)
  | tool (cid : Nat) (toolName : String)
  | cycleEnd (cid : Nat) (status : Option String)
deriving DecidableEq

/-- The system events of one command's cycle: its start, its tool
dispatches in order, and its terminal status. -/
def cycleSysEvents {σ : Type} (cid : Nat) (cr : CycleResult σ) : List SysEv :=
  .cycleStart cid ::
    (cr.events.filterMap (fun e =>
      match e with
      | .invoke n _ => some (.tool cid n)
      | .say _ => none)) ++
    [.cycleEnd cid (cycleStatus cr)]

/-- A planning-service oracle: the response to a command given the
conversation context sent with it. -/
abbrev Planner := List ChatMsg → PyStr → PlannerMessage

/-- The event trace of the system on a sequence of emitted commands:
each command's cycle (`_on_command`, run synchronously on the listener
thread) completes before the next command is processed, threading the
executor state and conversation history. -/
def systemTrace {σ : Type} (ex : Executor σ) (plan : Planner) :
    σ → List ChatMsg → Nat → List PyStr → List SysEv
  | _, _, _, [] => []
  | st, hist, cid, cmd :: rest =>
    let cr := onCommand ex st hist cmd (plan hist cmd)
    cycleSysEvents cid cr ++ systemTrace ex plan cr.exState cr.history (cid + 1) rest

/-- The command ordinals of the tool events of a trace, in trace order. -/
def toolOwners (tr : List SysEv) : List Nat :=
  tr.filterMap (fun e =>
    match e with
    | .tool i _ => some i
    | _ => none)

theorem toolOwners_append (a b : List SysEv) :
    toolOwners (a ++ b) = toolOwners a ++ toolOwners b := by
  simp [toolOwners]

theorem filterMap_invoke_tool (cid : Nat) (evs : List CycleEv) :
    evs.filterMap (fun e =>
      match e with
      | .invoke n (_ : Params) => some (SysEv.tool cid n)
      | .say _ => none) =
    (invokedOf evs).map (fun pr => SysEv.tool cid pr.1) := by
  induction evs with
  | nil => rfl
  | cons e rest ih =>
    cases e with
    | say c => simpa [invokedOf, List.filterMap_cons] using ih
    | invoke n ps => simpa [invokedOf, List.filterMap_cons] using ih

theorem mem_toolOwners_cycleSysEvents {σ : Type} (cid : Nat)
    (cr : CycleResult σ) : ∀ x ∈ toolOwners (cycleSysEvents cid cr), x = cid := by
  intro x hx
  unfold toolOwners cycleSysEvents at hx
  rw [filterMap_invoke_tool] at hx
  rcases List.mem_filterMap.mp hx with ⟨e, he, hme⟩
  rcases List.mem_cons.mp he with h0 | he2
  · subst h0; simp at hme
  · rcases List.mem_append.mp he2 with hmid | hend
    · rcases List.mem_map.mp hmid with ⟨pr, _, rfl⟩
      simpa using hme.symm
    · rcases List.mem_singleton.mp hend with rfl
      simp at hme

theorem mem_toolOwners_systemTrace {σ : Type} (ex : Executor σ) (plan : Planner) :
    ∀ (cmds : List PyStr) (st : σ) (hist : List ChatMsg) (cid : Nat),
      ∀ x ∈ toolOwners (systemTrace ex plan st hist cid cmds), cid ≤ x := by
  intro cmds
  induction cmds with
  | nil => intro st hist cid x hx; simp [systemTrace, toolOwners] at hx
  | cons cmd rest ih =>
    intro st hist cid x hx
    unfold systemTrace at hx
    rw [toolOwners_append] at hx
    rcases List.mem_append.mp hx with h1 | h2
    · exact Nat.le_of_eq (mem_toolOwners_cycleSysEvents cid _ x h1).symm
    · exact Nat.le_of_succ_le (ih _ _ (cid + 1) x h2)

theorem sorted_of_const {c : Nat} : ∀ {l : List Nat}, (∀ x ∈ l, x = c) →
    List.Sorted (· ≤ ·) l := by
  intro l
  induction l with
  | nil => intro _; exact List.sorted_nil
  | cons a t ih =>
    intro h
    rw [List.sorted_cons]
    refine ⟨fun b hb => ?_, ih (fun x hx => h x (by simp [hx]))⟩
    rw [h a (by simp), h b (by simp [hb])]

/-- The fail-fast loop finishes with status `completed` or `failed`. -/
theorem runSteps_status {σ : Type} (ex : Executor σ) :
    ∀ (st : σ) (steps : List Tool),
      (runSteps ex st steps).2.1 = "completed" ∨
      (runSteps ex st steps).2.1 = "failed" := by
  intro st steps
  induction steps generalizing st with
  | nil => left; rfl
  | cons t rest ih =>
    unfold runSteps
    by_cases hs : (ex st t.name t.parameters).1.success = true
    · rw [if_pos hs]
      exact ih _
    · rw [if_neg hs]
      right; rfl

theorem buildSteps_ok_ne_nil (y : ToolCallMsg) (ys : List ToolCallMsg)
    (ts : List Tool) (h : buildSteps (y :: ys) = .ok ts) : ts ≠ [] := by
  unfold buildSteps at h
  split at h
  · split at h
    · injection h with h1
      rw [← h1]
      simp
    · exact absurd h (by simp)
  · exact absurd h (by simp)

/-- The planner produces either a completed empty-steps task or a
pending task with a non-empty step list. -/
theorem processVoiceCommand_ok_cases (h : List ChatMsg) (cmd : PyStr)
    (resp : PlannerMessage) (t : Task) (h2 : List ChatMsg)
    (he : processVoiceCommand h cmd resp = (.ok t, h2)) :
    (t.status = "completed" ∧ t.steps = []) ∨
    (t.status = "pending" ∧ t.steps ≠ []) := by
  unfold processVoiceCommand at he
  rcases htc : resp.toolCalls with _ | ⟨y, ys⟩
  · rw [htc] at he
    injection he with he1 _
    injection he1 with he1
    left
    rw [← he1]
    exact ⟨rfl, rfl⟩
  · rw [htc] at he
    rcases hb : buildSteps (y :: ys) with e | ts
    · rw [hb] at he
      exact absurd he (by simp)
    · rw [hb] at he
      injection he with he1 _
      injection he1 with he1
      right
      rw [← he1]
      exact ⟨rfl, buildSteps_ok_ne_nil y ys ts hb⟩

/-- A cycle only ever ends in a terminal state: no task (planning
raised), `completed`, or `failed` — never `pending` or `in_progress`. -/
theorem cycleStatus_terminal {σ : Type} (ex : Executor σ) (st : σ)
    (hist : List ChatMsg) (cmd : PyStr) (resp : PlannerMessage) :
    cycleStatus (processCommandAsync ex st hist cmd resp) ∈
      [none, some "completed", some "failed"] := by
  unfold processCommandAsync
  rcases hp : processVoiceCommand hist cmd resp with ⟨et, h2⟩
  rcases et with e | t
  · simp [cycleStatus]
  · dsimp only
    rcases processVoiceCommand_ok_cases hist cmd resp t h2 hp with ⟨hst, hsteps⟩ | ⟨_, hsteps⟩
    · rw [hsteps]
      simp [cycleStatus, hst]
    · rcases hts : t.steps with _ | ⟨t0, rest⟩
      · exact absurd hts hsteps
      · dsimp only [cycleStatus]
        rcases runSteps_status ex st (t0 :: rest) with hc | hf
        · simp [hc]
        · simp [hf]

theorem cycleStatus_onCommand {σ : Type} (ex : Executor σ) (st : σ)
    (hist : List ChatMsg) (cmd : PyStr) (resp : PlannerMessage) :
    cycleStatus (onCommand ex st hist cmd resp) =
      cycleStatus (processCommandAsync ex st hist cmd resp) := rfl

/-- C7: the orchestrator processes at most one command end-to-end at a
time.  The system trace decomposes into one contiguous block per
command, in FIFO arrival order: each block is that command's
`cycleStart`, its tool dispatches, and a single terminal `cycleEnd`
(status absent, `completed` or `failed`) — so a later command's cycle
begins only after the prior cycle reached a terminal status, and the
owners of the tool events are non-decreasing: tool calls of two
different commands are never interleaved. -/
theorem orchestrator_serializes {σ : Type} (ex : Executor σ) (plan : Planner)
    (st : σ) (hist : List ChatMsg) (cid : Nat) (cmds : List PyStr) :
    (∃ blocks : List (List SysEv),
      systemTrace ex plan st hist cid cmds = blocks.flatten ∧
      blocks.length = cmds.length ∧
      ∀ k, ∀ b, blocks.get? k = some b →
        ∃ (tools : List String) (status : Option String),
          b = .cycleStart (cid + k) ::
            (tools.map (SysEv.tool (cid + k))) ++ [.cycleEnd (cid + k) status] ∧
          status ∈ [none, some "completed", some "failed"]) ∧
    List.Sorted (· ≤ ·) (toolOwners (systemTrace ex plan st hist cid cmds)) := by
  constructor
  · induction cmds generalizing st hist cid with
    | nil => exact ⟨[], by simp [systemTrace], by simp, by intro k b hb; simp at hb⟩
    | cons cmd rest ih =>
      obtain ⟨blocks, hflat, hlen, hblocks⟩ := ih
        (onCommand ex st hist cmd (plan hist cmd)).exState
        (onCommand ex st hist cmd (plan hist cmd)).history (cid + 1)
      refine ⟨cycleSysEvents cid (onCommand ex st hist cmd (plan hist cmd)) :: blocks,
        ?_, by simpa using hlen, ?_⟩
      · unfold systemTrace
        dsimp only
        rw [List.flatten_cons, hflat]
      · intro k b hb
        cases k with
        | zero =>
          simp only [List.get?_cons_zero, Option.some.injEq] at hb
          refine ⟨((invokedOf (onCommand ex st hist cmd (plan hist cmd)).events).map
            Prod.fst), cycleStatus (onCommand ex st hist cmd (plan hist cmd)), ?_, ?_⟩
          · rw [← hb]
            unfold cycleSysEvents
            rw [filterMap_invoke_tool]
            simp [Nat.add_zero]
          · rw [cycleStatus_onCommand]
            exact cycleStatus_terminal ex st hist cmd (plan hist cmd)
        | succ k' =>
          simp only [List.get?_cons_succ] at hb
          obtain ⟨tools, status, hbeq, hstat⟩ := hblocks k' b hb
          refine ⟨tools, status, ?_, hstat⟩
          rw [hbeq]
          have : cid + 1 + k' = cid + (k' + 1) := by omega
          rw [this]
  · induction cmds generalizing st hist cid with
    | nil => simp [systemTrace, toolOwners]
    | cons cmd rest ih =>
      unfold systemTrace
      rw [toolOwners_append]
      refine List.pairwise_append.mpr
        ⟨sorted_of_const (mem_toolOwners_cycleSysEvents cid _), ih _ _ _, ?_⟩
      intro a ha b hb
      have h1 := mem_toolOwners_cycleSysEvents cid _ a ha
      have h2 := mem_toolOwners_systemTrace ex plan rest _ _ (cid + 1) b hb
      omega

/-- A simple planner oracle for the closed instantiation below. -/
def planW : Planner := fun _ _ => respAnsW

/-- C7 witness: the serialization theorem instantiated on a concrete
two-command run. -/
theorem orchestrator_serializes_witness :
    (∃ blocks : List (List SysEv),
      systemTrace exOkW planW () [] 0 [codes "hello", codes "hi there"] =
        blocks.flatten ∧
      blocks.length = [codes "hello", codes "hi there"].length ∧
      ∀ k, ∀ b, blocks.get? k = some b →
        ∃ (tools : List String) (status : Option String),
          b = .cycleStart (0 + k) ::
            (tools.map (SysEv.tool (0 + k))) ++ [.cycleEnd (0 + k) status] ∧
          status ∈ [none, some "completed", some "failed"]) ∧
    List.Sorted (· ≤ ·)
      (toolOwners (systemTrace exOkW planW () [] 0 [codes "hello", codes "hi there"])) :=
  orchestrator_serializes exOkW planW () [] 0 [codes "hello", codes "hi there"]

/-! ## C8: shutdown (`VoiceAssistant.stop`, main.py:63-78) -/

/-- The cross-component state visible to `VoiceAssistant.stop`. -/
structure AsstState where
  isRunning : Bool
  isListening : Bool
  commandQueue : List PyStr
  speechQueue : List PyStr
  speakActive : Bool
  renderActive : Bool
  browserOpen : Bool
deriving DecidableEq

/-- Teardown actions, in the order `stop` performs them. -/
inductive StopEv where
  | listenerStopped
  | goodbyeSpoken
  | speechStopped
  | executorCleaned
deriving DecidableEq

/-- `VoiceListener.stop` (voice_listener.py:50-57): clear the listening
flag and join the loop thread with a bounded timeout.  The listener's
`command_queue` is NOT touched. -/
def listenerStop (s : AsstState) : AsstState × List StopEv :=
  ({ s with isListening := false }, [.listenerStopped])

/-- `VoiceResponder.stop` (voice_responder.py:125-144): clear the
speaking flag, drain the pending speech queue, and halt in-progress
playback with `engine.stop()`. -/
def responderStop (s : AsstState) : AsstState × List StopEv :=
  ({ s with speakActive := false, speechQueue := [], renderActive := false },
   [.speechStopped])

/-- `ToolExecutor.cleanup` (tools_executor.py:315-322): close the
browser session and stop playwright. -/
def executorCleanup (s : AsstState) : AsstState × List StopEv :=
  ({ s with browserOpen := false }, [.executorCleaned])

/-- `VoiceAssistant.stop` (main.py:63-78): clear `is_running`, stop the
listener, speak the goodbye message blocking (rendered immediately; the
speech queue is untouched), stop the responder, then clean up the
executor — in that order. -/
def assistantStop (s : AsstState) : AsstState × List StopEv :=
  let s0 : AsstState := { s with isRunning := false }
  let r1 := listenerStop s0
  let r2 := (r1.1, [StopEv.goodbyeSpoken])
  let r3 := responderStop r2.1
  let r4 := executorCleanup r3.1
  (r4.1, r1.2 ++ r2.2 ++ r3.2 ++ r4.2)

/-- C8 (amended): `stop` tears down in the order listener → speech
output (pending speech queue dropped, playback halted) → executor
resources; afterwards the speech queue is empty, no loop flag is still
set (so no background thread of control remains runnable past its next
check), and the browser session is released — but the COMMAND queue is
left exactly as it was: it is never drained or cleared, so commands
enqueued during the session remain in it after shutdown. -/
theorem assistantStop_spec (s : AsstState) :
    (assistantStop s).2 =
      [.listenerStopped, .goodbyeSpoken, .speechStopped, .executorCleaned] ∧
    (assistantStop s).1.speechQueue = [] ∧
    (assistantStop s).1.renderActive = false ∧
    (assistantStop s).1.isListening = false ∧
    (assistantStop s).1.speakActive = false ∧
    (assistantStop s).1.browserOpen = false ∧
    (assistantStop s).1.isRunning = false ∧
    (assistantStop s).1.commandQueue = s.commandQueue := by
  unfold assistantStop listenerStop responderStop executorCleanup
  exact ⟨rfl, rfl, rfl, rfl, rfl, rfl, rfl, rfl⟩

/-- A session state in which one command was processed: the command was
enqueued (voice_listener.py:138) and never dequeued — `get_command` has
no caller in main.py. -/
def preStopW : AsstState :=
  ⟨true, true, [codes "open chrome"], [], false, false, true⟩

/-- C8 counterexample to "both queues are empty" as claimed: after
`stop`, the command queue still holds the session's enqueued command. -/
theorem assistantStop_command_queue_counterexample :
    (assistantStop preStopW).1.commandQueue = [codes "open chrome"] ∧
    (assistantStop preStopW).1.commandQueue ≠ [] ∧
    (assistantStop preStopW).1.speechQueue = [] := by
  decide

/-! ## C6: the speech-output queue (`voice_responder.py`)

`VoiceResponder.speak(text, blocking=False)` enqueues onto
`response_queue` and starts a `_speak_loop` consumer thread when
`is_speaking` is not set (voice_responder.py:60-66); the consumer
dequeues with a timeout, renders one utterance at a time, and on an
empty-queue timeout clears `is_speaking` and exits its loop
(voice_responder.py:76-93).  We model the producer call sequence
`speak(A); speak(B)` and up to two consumer threads (the program can
spawn at most one consumer per enqueue) as an interleaving transition
system whose atomic steps are the individual statements acting on the
shared `response_queue` / `is_speaking` state. -/

/-- The two enqueued utterances "A then B". -/
inductive Msg where
  | a
  | b
deriving DecidableEq

/-- Program counter of one `_speak_loop` consumer thread:
`checkWhile` is the `while self.is_speaking` test, `tryGet` the
`response_queue.get(timeout=1)` call (which dequeues when an item is
available and raises `queue.Empty` only on a timeout with an empty
queue), `render m` the `engine.say` + `runAndWait` of utterance `m`,
`setFalse` the `except queue.Empty` handler about to clear
`is_speaking`. -/
inductive CPc where
  | checkWhile
  | tryGet
  | render (m : Msg)
  | setFalse
  | exited
deriving DecidableEq

/-- Program counter of the producer running `speak(A); speak(B)`:
enqueue, read `is_speaking`, conditionally `_start_speak_thread`. -/
inductive PPc where
  | putA
  | checkA
  | spawnA
  | putB
  | checkB
  | spawnB
  | done
deriving DecidableEq

/-- Shared state: the FIFO `response_queue`, the `is_speaking` flag, the
producer, the (at most two) consumer-thread slots (`none` = never
spawned), and the log of utterances whose render has completed. -/
structure RState where
  queue : List Msg
  flag : Bool
  prod : PPc
  c1 : Option CPc
  c2 : Option CPc
  log : List Msg
deriving DecidableEq

/-- `_start_speak_thread` (voice_responder.py:68-74): set `is_speaking`
and start a new consumer thread (in the next free slot). -/
def spawnCons (s : RState) : RState :=
  if s.c1 = none then { s with c1 := some .checkWhile }
  else { s with c2 := some .checkWhile }

/-- Producer steps (voice_responder.py:60-66, executed twice). -/
def prodSuccs (s : RState) : List RState :=
  match s.prod with
  | .putA => [{ s with queue := s.queue ++ [.a], prod := .checkA }]
  | .checkA => [{ s with prod := if s.flag then .putB else .spawnA }]
  | .spawnA => [spawnCons { s with flag := true, prod := .putB }]
  | .putB => [{ s with queue := s.queue ++ [.b], prod := .checkB }]
  | .checkB => [{ s with prod := if s.flag then .done else .spawnB }]
  | .spawnB => [spawnCons { s with flag := true, prod := .done }]
  | .done => []

/-- Steps of one consumer slot (voice_responder.py:76-93), parametrised
by its accessor and updater. -/
def consSuccs (s : RState) (get : RState → Option CPc)
    (set : RState → Option CPc → RState) : List RState :=
  match get s with
  | none => []
  | some pc =>
    match pc with
    | .checkWhile => [set s (some (if s.flag then .tryGet else .exited))]
    | .tryGet =>
      match s.queue with
      | m :: rest => [set { s with queue := rest } (some (.render m))]
      | [] => [set s (some .setFalse)]
    | .render m => [set { s with log := s.log ++ [m] } (some .checkWhile)]
    | .setFalse => [set { s with flag := false } (some .checkWhile)]
    | .exited => []

/-- All states one interleaving step away. -/
def succs (s : RState) : List RState :=
  prodSuccs s ++
  consSuccs s (fun s => s.c1) (fun s pc => { s with c1 := pc }) ++
  consSuccs s (fun s => s.c2) (fun s pc => { s with c2 := pc })

/-- Initial state: empty queue, flag clear, producer about to enqueue A,
no consumer thread. -/
def rInit : RState := ⟨[], false, .putA, none, none, []⟩

/-- One interleaving step. -/
def rstep (s t : RState) : Prop := t ∈ succs s

/-- Reachability from the initial state. -/
def RReach (s : RState) : Prop := Relation.ReflTransGen rstep rInit s

def stepOnce (l : List RState) : List RState := (l ++ l.flatMap succs).dedup

def stepClosure : Nat → List RState → List RState
  | 0, l => l
  | n + 1, l => stepClosure n (stepOnce l)

/-- The (finite) reachable state space: 25 breadth-first rounds reach
the fixpoint (84 states). -/
def reachList : List RState := stepClosure 25 [rInit]

def isRender : Option CPc → Bool
  | some (.render _) => true
  | _ => false

def isRenderB : Option CPc → Bool
  | some (.render .b) => true
  | _ => false

/-- A thread slot that holds no runnable thread of control. -/
def idle : Option CPc → Bool
  | none => true
  | some .exited => true
  | _ => false

def pweight : PPc → Nat
  | .putA => 6
  | .checkA => 5
  | .spawnA => 4
  | .putB => 3
  | .checkB => 2
  | .spawnB => 1
  | .done => 0

def cweight (flag : Bool) : Option CPc → Nat
  | none => 0
  | some .exited => 0
  | some .setFalse => 2
  | some .tryGet => 3
  | some .checkWhile => if flag then 4 else 1
  | some (.render _) => 6

/-- A ranking function that strictly decreases along every step: the
system never runs forever (in particular the consumer never
busy-waits). -/
def rmeasure (s : RState) : Nat :=
  20 * pweight s.prod + 4 * s.queue.length + 3 * (if s.flag then 1 else 0) +
    cweight s.flag s.c1 + cweight s.flag s.c2

/-- Per-state facts checked over the reachable set: mutual exclusion of
renders, B-after-A ordering, consumer-started-on-first-enqueue, idle
consumers in stuck states, and the ranking decrease. -/
def rstateOk (s : RState) : Bool :=
  (!(isRender s.c1 && isRender s.c2)) &&
  (!(isRenderB s.c1 || isRenderB s.c2) || s.log == [.a]) &&
  (!(decide (Msg.b ∈ s.log)) || s.log == [.a, .b]) &&
  (!(decide (s.prod = .putB ∨ s.prod = .checkB ∨ s.prod = .spawnB ∨
      s.prod = .done)) || decide (s.c1 ≠ none)) &&
  (!(decide (succs s = [])) ||
    (idle s.c1 && idle s.c2 && decide (s.prod = .done))) &&
  ((succs s).all (fun t => decide (rmeasure t < rmeasure s)))

set_option maxRecDepth 8000 in
theorem reachList_closed_and_ok :
    rInit ∈ reachList ∧
    ∀ s ∈ reachList, (∀ t ∈ succs s, t ∈ reachList) ∧ rstateOk s = true := by
  decide

theorem rreach_mem {s : RState} (h : RReach s) : s ∈ reachList := by
  induction h with
  | refl => exact reachList_closed_and_ok.1
  | tail _ hstep ih => exact ((reachList_closed_and_ok.2 _ ih).1 _ hstep)

theorem rstateOk_of_reach {s : RState} (h : RReach s) : rstateOk s = true :=
  (reachList_closed_and_ok.2 s (rreach_mem h)).2

theorem rmeasure_decreases {s t : RState} (h : RReach s) (hst : rstep s t) :
    rmeasure t < rmeasure s := by
  have hok := rstateOk_of_reach h
  simp only [rstateOk, Bool.and_eq_true] at hok
  have hall := hok.2
  rw [List.all_eq_true] at hall
  exact of_decide_eq_true (hall t hst)

/-- Every run of the system terminates: there is no infinite step
sequence from the initial state. -/
theorem no_infinite_run :
    ¬ ∃ f : Nat → RState, f 0 = rInit ∧ ∀ n, rstep (f n) (f (n + 1)) := by
  rintro ⟨f, h0, hstep⟩
  have hreach : ∀ n, RReach (f n) := by
    intro n
    induction n with
    | zero => rw [h0]; exact Relation.ReflTransGen.refl
    | succ n ih => exact Relation.ReflTransGen.tail ih (hstep n)
  have hdec : ∀ n, rmeasure (f (n + 1)) < rmeasure (f n) :=
    fun n => rmeasure_decreases (hreach n) (hstep n)
  have hbound : ∀ n, rmeasure (f n) + n ≤ rmeasure (f 0) := by
    intro n
    induction n with
    | zero => omega
    | succ n ih => have := hdec n; omega
  have := hbound (rmeasure (f 0) + 1)
  omega

/-- C6: in every reachable interleaving of `speak(A); speak(B)` with the
consumer thread(s): at most one utterance is being rendered at any
instant; B's render can only be in progress (or finished) after A's
render has completed; by the time the first `speak` call returns, a
consumer thread has been started; in any state with no step left no
consumer thread remains runnable (the consumer terminates itself once
the queue empties instead of busy-waiting); and no infinite run exists. -/
theorem speak_async_serial (s : RState) (hs : RReach s) :
    (isRender s.c1 && isRender s.c2) = false ∧
    ((isRenderB s.c1 || isRenderB s.c2) = true → s.log = [.a]) ∧
    (Msg.b ∈ s.log → s.log = [.a, .b]) ∧
    ((s.prod = .putB ∨ s.prod = .checkB ∨ s.prod = .spawnB ∨ s.prod = .done) →
      s.c1 ≠ none) ∧
    ((∀ t, ¬ rstep s t) → idle s.c1 = true ∧ idle s.c2 = true ∧ s.prod = .done) ∧
    ¬ ∃ f : Nat → RState, f 0 = rInit ∧ ∀ n, rstep (f n) (f (n + 1)) := by
  have hok := rstateOk_of_reach hs
  simp only [rstateOk, Bool.and_eq_true] at hok
  obtain ⟨⟨⟨⟨⟨h1, h2⟩, h3⟩, h4⟩, h5⟩, _⟩ := hok
  refine ⟨?_, ?_, ?_, ?_, ?_, no_infinite_run⟩
  · cases hx : (isRender s.c1 && isRender s.c2) with
    | false => rfl
    | true => rw [hx] at h1; exact absurd h1 (by simp)
  · intro hb
    rw [hb] at h2
    simpa using h2
  · intro hb
    rw [decide_eq_true hb] at h3
    simpa using h3
  · intro hp
    rw [decide_eq_true hp] at h4
    simp only [Bool.not_true, Bool.false_or] at h4
    exact of_decide_eq_true h4
  · intro hstuck
    have hnil : succs s = [] := by
      rcases he : succs s with _ | ⟨t, ts⟩
      · rfl
      · exact absurd (show rstep s t by rw [rstep, he]; simp) (hstuck t)
    rw [decide_eq_true hnil] at h5
    simp only [Bool.not_true, Bool.false_or, Bool.and_eq_true] at h5
    exact ⟨h5.1.1, h5.1.2, of_decide_eq_true h5.2⟩

/-- C6 witness: the theorem instantiated at the initial state. -/
theorem speak_async_serial_witness :
    (isRender rInit.c1 && isRender rInit.c2) = false ∧
    ((isRenderB rInit.c1 || isRenderB rInit.c2) = true → rInit.log = [.a]) ∧
    (Msg.b ∈ rInit.log → rInit.log = [.a, .b]) ∧
    ((rInit.prod = .putB ∨ rInit.prod = .checkB ∨ rInit.prod = .spawnB ∨
        rInit.prod = .done) → rInit.c1 ≠ none) ∧
    ((∀ t, ¬ rstep rInit t) → idle rInit.c1 = true ∧ idle rInit.c2 = true ∧
      rInit.prod = .done) ∧
    ¬ ∃ f : Nat → RState, f 0 = rInit ∧ ∀ n, rstep (f n) (f (n + 1)) :=
  speak_async_serial rInit Relation.ReflTransGen.refl

end VA
